import Mathlib

/-!
Shallow embedding of the lindura_backend sales API (src/src/app.py).

The embedding models the Supabase-backed tables as in-memory lists of rows,
and each endpoint body as a pure function from (request, store) to
(response, store).  Remote-store write failures are injected through an
explicit `Env` oracle: `Env.saleInsertOk` decides whether the sale-header
insert returns a row, `Env.itemInsertOk i` / `Env.stockUpdateOk i` decide the
fate of the i-th sale-item insert / stock update of an invocation (a failed
write performs no mutation and returns no rows, matching a rejected
Supabase call whose `response.data` is empty).

Numbers: money amounts and quantities are JSON numbers in the source and are
modelled as `Int`; identifiers are modelled as `Nat`.  Missing JSON fields
are modelled as `none`; Python truthiness tests (`not data.get(...)`) are
modelled by the `falsy*` helpers (0 and the empty string are falsy).
-/

namespace Lindura

structure Product where
  id : Nat
  user_id : Nat
  name : String
  price : Int
  stock : Int
  category : String
  low_stock_alert : Int
deriving DecidableEq

structure Sale where
  id : Nat
  total : Int
  customer_id : Option Nat
  user_id : Nat
deriving DecidableEq

structure SaleItem where
  id : Nat
  sale_id : Nat
  product_id : Nat
  quantity : Int
  unit_price : Int
deriving DecidableEq

/-- The persistent state: the three tables touched by the sale flow, plus
the store-assigned identities for the next inserted sale / sale item. -/
structure Store where
  products : List Product
  sales : List Sale
  sale_items : List SaleItem
  next_sale_id : Nat
  next_item_id : Nat
deriving DecidableEq

/-- One entry of the request's `items` array.  `product_id`, `quantity` and
`unit_price` are each optional JSON fields. -/
structure ReqItem where
  product_id : Option Nat
  quantity : Option Int
  unit_price : Option Int
deriving DecidableEq

/-- The `POST /api/sales` body.  The `total` field models a client-supplied
total: the handler never reads it. -/
structure SaleRequest where
  items : Option (List ReqItem)
  customer_id : Option Nat
  total : Option Int
deriving DecidableEq

/-- Failure-injection oracle for the store writes of one `create_sale`
invocation. -/
structure Env where
  saleInsertOk : Bool
  itemInsertOk : Nat → Bool
  stockUpdateOk : Nat → Bool

/-- Environment in which every store write succeeds. -/
def envAllOk : Env := ⟨true, fun _ => true, fun _ => true⟩

inductive Resp where
  | ok (sale : Sale)
  | err (status : Nat) (msg : String)
deriving DecidableEq

def Resp.isOk : Resp → Bool
  | .ok _ => true
  | .err _ _ => false

/-- Python truthiness of `data.get(k)` for an optional id. -/
def falsyNat : Option Nat → Bool
  | none => true
  | some n => n == 0

/-- Python truthiness of `data.get(k)` for an optional number. -/
def falsyInt : Option Int → Bool
  | none => true
  | some n => n == 0

/-- Python truthiness of `data.get(k)` for an optional string. -/
def falsyStr : Option String → Bool
  | none => true
  | some s => s == ""

/-- `data.get('customer_id') or None`: a falsy value becomes `None`. -/
def pyOrNone : Option Nat → Option Nat
  | none => none
  | some c => if c == 0 then none else some c

/-- The product select inside `create_sale`'s validation loop:
`products` filtered by `id` and by `user_id` (ownership scoped). -/
def fetchProduct (uid pid : Nat) (store : Store) : List Product :=
  store.products.filter (fun p => p.id == pid && p.user_id == uid)

/-- One entry of `items_to_process`: the fetched product row, the raw request
item, and the effective unit price. -/
structure ProcItem where
  product : Product
  item_data : ReqItem
  unit_price : Int
deriving DecidableEq

/-- The validation loop of `create_sale` (src/src/app.py lines 267-293):
walks the request items in order; rejects an item whose `product_id` or
`quantity` is falsy, an item whose ownership-scoped product select returns
no row, and an item whose product stock is `<` the requested quantity;
otherwise accumulates the item total (effective unit price times quantity)
and the processing info.  The returned total and item list are exactly the
loop's `total` and `items_to_process`. -/
def validateItems (uid : Nat) (store : Store) : List ReqItem → Except Resp (Int × List ProcItem)
  | [] => .ok (0, [])
  | item :: rest =>
    if falsyNat item.product_id || falsyInt item.quantity then
      .error (.err 400 "Cada item debe tener product_id y quantity")
    else
      match fetchProduct uid (item.product_id.getD 0) store with
      | [] => .error (.err 404 ("Producto " ++ toString (item.product_id.getD 0) ++ " no encontrado"))
      | product :: _ =>
        if product.stock < item.quantity.getD 0 then
          .error (.err 400 ("Stock insuficiente para " ++ product.name ++
            ". Stock disponible: " ++ toString product.stock))
        else
          let item_price := item.unit_price.getD product.price
          match validateItems uid store rest with
          | .error e => .error e
          | .ok (t, infos) =>
            .ok (item_price * item.quantity.getD 0 + t,
                 (⟨product, item, item_price⟩ : ProcItem) :: infos)

/-- The stock update applied to a single `products` row: the update is keyed
by product id only (no user filter, faithful to lines 339-342) and writes
`product['stock'] - item_data['quantity']`, computed from the stock snapshot
fetched during validation. -/
def stepProd (p : Product) (info : ProcItem) : Product :=
  if p.id == info.product.id then
    { p with stock := info.product.stock - info.item_data.quantity.getD 0 }
  else p

/-- The stock update applied to the whole `products` table. -/
def applyUpd (ps : List Product) (info : ProcItem) : List Product :=
  ps.map (fun p => stepProd p info)

/-- The `sale_items` row inserted for one processed item (lines 319-324):
the store assigns the row id, the payload carries the sale id, the raw
request's product id and quantity, and the effective unit price. -/
def mkSaleItem (store : Store) (sale : Sale) (info : ProcItem) : SaleItem :=
  { id := store.next_item_id,
    sale_id := sale.id,
    product_id := info.item_data.product_id.getD 0,
    quantity := info.item_data.quantity.getD 0,
    unit_price := info.unit_price }

/-- The store after one fully successful iteration of the per-item loop:
the sale-item row is appended and the product's stock is updated. -/
def stepStore (sale : Sale) (info : ProcItem) (store : Store) : Store :=
  { store with
    products := applyUpd store.products info,
    sale_items := store.sale_items ++ [mkSaleItem store sale info],
    next_item_id := store.next_item_id + 1 }

/-- The per-item loop of `create_sale` (lines 313-349): for each processed
item, insert a `sale_items` row (on failure: delete the sale header and
abort naming the product); then update the product's stock (the update
"returns data" when the write is accepted and some row matches the id;
otherwise: delete the sale header, delete the sale's items, abort naming
the product). -/
def processItems (env : Env) (sale : Sale) : List ProcItem → Nat → Store → Resp × Store
  | [], _, store => (.ok sale, store)
  | info :: rest, idx, store =>
    if env.itemInsertOk idx then
      let store1 : Store := { store with
        sale_items := store.sale_items ++ [mkSaleItem store sale info],
        next_item_id := store.next_item_id + 1 }
      if env.stockUpdateOk idx && store1.products.any (fun p => p.id == info.product.id) then
        let store2 : Store := { store1 with products := applyUpd store1.products info }
        processItems env sale rest (idx + 1) store2
      else
        let store2 : Store := { store1 with
          sales := store1.sales.filter (fun s => s.id != sale.id),
          sale_items := store1.sale_items.filter (fun x => x.sale_id != sale.id) }
        (.err 400 ("Error actualizando stock para " ++ info.product.name), store2)
    else
      let store1 : Store := { store with
        sales := store.sales.filter (fun s => s.id != sale.id) }
      (.err 400 ("Error creando item para " ++ info.product.name), store1)

/-- The sale header row inserted by `create_sale` (lines 296-303): the
server-computed total, the or-normalised customer id, the caller's user id,
and a store-assigned identity. -/
def newSale (uid : Nat) (data : SaleRequest) (store : Store) (total : Int) : Sale :=
  { id := store.next_sale_id,
    total := total,
    customer_id := pyOrNone data.customer_id,
    user_id := uid }

/-- The store after the sale-header insert. -/
def insertHeader (sale : Sale) (store : Store) : Store :=
  { store with sales := store.sales ++ [sale], next_sale_id := store.next_sale_id + 1 }

/-- `POST /api/sales` handler body after authentication (lines 255-352). -/
def create_sale (env : Env) (uid : Nat) (data : SaleRequest) (store : Store) : Resp × Store :=
  match data.items with
  | none => (.err 400 "La venta debe tener al menos un item", store)
  | some items =>
    if items.isEmpty then
      (.err 400 "La venta debe tener al menos un item", store)
    else
      match validateItems uid store items with
      | .error e => (e, store)
      | .ok (total, infos) =>
        if env.saleInsertOk then
          let sale : Sale := newSale uid data store total
          processItems env sale infos 0 (insertHeader sale store)
        else
          (.err 400 "Error creando la venta en la base de datos", store)

/-- Specification-side effective unit price (spec section 4.2, rule 5): the
caller-supplied `unit_price` when present, else the product's catalog
price. -/
def effectiveUnitPrice (item : ReqItem) (p : Product) : Int :=
  item.unit_price.getD p.price

/-- Specification-side total (spec section 4.2, rule 6): the sum over the
request's items of (effective unit price times quantity), the unit price
being resolved against the product fetched for the item. -/
def specTotal (uid : Nat) (store : Store) : List ReqItem → Int
  | [] => 0
  | it :: rest =>
    (match fetchProduct uid (it.product_id.getD 0) store with
     | p :: _ => effectiveUnitPrice it p * it.quantity.getD 0
     | [] => 0) + specTotal uid store rest

/-- Store sanity invariant: sale and sale-item ids already present are older
than the next assigned sale id, and product ids are keys (two rows with the
same id are the same row). -/
def Store.WF (store : Store) : Prop :=
  (∀ s ∈ store.sales, s.id < store.next_sale_id) ∧
  (∀ si ∈ store.sale_items, si.sale_id < store.next_sale_id) ∧
  (∀ p ∈ store.products, ∀ q ∈ store.products, p.id = q.id → p = q)

instance (store : Store) : Decidable store.WF := by
  unfold Store.WF; infer_instance

/-! ### Product creation (`POST /api/products`, lines 134-166) -/

structure ProductRequest where
  name : Option String
  price : Option Int
  stock : Option Int
  category : Option String
  low_stock_alert : Option Int
deriving DecidableEq

inductive ProductResp where
  | ok (p : Product)
  | err (status : Nat) (msg : String)
deriving DecidableEq

/-- `POST /api/products` handler body after authentication: rejects a falsy
name or price with a 400 before any store access; otherwise inserts the
coerced row (the store assigns `newId`; `insertOk` injects an insert
failure, which mutates nothing). -/
def create_product (insertOk : Bool) (newId uid : Nat) (data : ProductRequest)
    (store : Store) : ProductResp × Store :=
  if falsyStr data.name || falsyInt data.price then
    (.err 400 "Nombre y precio son requeridos", store)
  else
    let p : Product := {
      id := newId,
      user_id := uid,
      name := data.name.getD "",
      price := data.price.getD 0,
      stock := data.stock.getD 0,
      category := data.category.getD "",
      low_stock_alert := data.low_stock_alert.getD 5 }
    if insertOk then
      (.ok p, { store with products := store.products ++ [p] })
    else
      (.err 400 "Error creando producto", store)

/-! ### Top products report (`GET /api/reports/top-products`, lines 570-610) -/

/-- One row of the `sale_items` fetch: the selected columns plus the
embedded product name (null when the join finds no product). -/
structure FetchedItem where
  quantity : Int
  unit_price : Int
  product_name : Option String
deriving DecidableEq

/-- `item['products']['name'] if item['products'] else 'Producto desconocido'`. -/
def productNameOf (row : FetchedItem) : String :=
  row.product_name.getD "Producto desconocido"

/-- The sale-items fetch of `top_products` (lines 578-581).  The source
filters with `.eq('sales.user_id', user.id)`; that filter addresses the
embedded resource `sales`, which does not occur in the select list
(`quantity, unit_price, products(name)`), and per the REST store's
semantics a filter on an embedded resource never restricts the top-level
rows.  The fetch therefore returns one row per `sale_items` row of the
whole table, regardless of the requesting user. -/
def topProductsFetch (uid : Nat) (store : Store) : List FetchedItem :=
  let _ := uid
  store.sale_items.map (fun si =>
    { quantity := si.quantity,
      unit_price := si.unit_price,
      product_name := ((store.products.filter (fun p => p.id == si.product_id)).head?).map
        (fun p => p.name) })

/-- One entry of the aggregated report. -/
structure TopEntry where
  name : String
  quantity : Int
  revenue : Int
deriving DecidableEq

/-- The in-place accumulation `product_sales[name]['quantity'] += ...`
applied to one mapping entry: entries under the row's product name gain the
row's quantity and revenue, others are untouched. -/
def updEntry (row : FetchedItem) (e : TopEntry) : TopEntry :=
  if e.name == productNameOf row then
    { e with
      quantity := e.quantity + row.quantity,
      revenue := e.revenue + row.quantity * row.unit_price }
  else e

/-- One step of the aggregation loop (lines 585-593): group by product name
in an insertion-ordered mapping, accumulating quantity and
quantity times unit price; an unseen name appends a fresh entry
(initialised to zero then immediately accumulated, hence the row's own
values). -/
def addItem (acc : List TopEntry) (row : FetchedItem) : List TopEntry :=
  if acc.any (fun e => e.name == productNameOf row) then
    acc.map (updEntry row)
  else
    acc ++ [{ name := productNameOf row, quantity := row.quantity,
              revenue := row.quantity * row.unit_price }]

/-- The aggregation over all fetched rows. -/
def aggregate (rows : List FetchedItem) : List TopEntry :=
  rows.foldl addItem []

/-- The sort key relation of `top_products_list.sort(key=..., reverse=True)`:
descending by quantity.  Python's sort is stable; `List.insertionSort` below
realises the same stable descending order. -/
def qtyGe (a b : TopEntry) : Prop := b.quantity ≤ a.quantity

instance : DecidableRel qtyGe :=
  fun a b => inferInstanceAs (Decidable (b.quantity ≤ a.quantity))

instance : IsTotal TopEntry qtyGe := ⟨fun a b => Int.le_total b.quantity a.quantity⟩

instance : IsTrans TopEntry qtyGe := ⟨fun _ _ _ hab hbc => le_trans hbc hab⟩

/-- Aggregate, sort descending by quantity (stable), keep the first 10. -/
def topProductsList (rows : List FetchedItem) : List TopEntry :=
  (List.insertionSort qtyGe (aggregate rows)).take 10

/-- `GET /api/reports/top-products` handler body after authentication. -/
def top_products (uid : Nat) (store : Store) : List TopEntry :=
  topProductsList (topProductsFetch uid store)

/-- Specification-side total quantity sold under one product name. -/
def totalQtyFor (rows : List FetchedItem) (n : String) : Int :=
  ((rows.filter (fun r => productNameOf r == n)).map (fun r => r.quantity)).sum

/-- Specification-side total revenue under one product name. -/
def totalRevFor (rows : List FetchedItem) (n : String) : Int :=
  ((rows.filter (fun r => productNameOf r == n)).map (fun r => r.quantity * r.unit_price)).sum

/-! ### Lemmas about the validation loop -/

theorem mem_of_head? {α : Type} {l : List α} {a : α} (h : l.head? = some a) : a ∈ l := by
  cases l with
  | nil => simp at h
  | cons x xs => simp at h; simp [h]

/-- Everything the validation loop guarantees about a successful pass:
the processed items are the request items in order, the computed total is
the specification total, and each processed item records the head row of
its ownership-scoped product fetch, the effective unit price, non-falsy
fields and a sufficient stock. -/
theorem validateItems_ok_spec (uid : Nat) (store : Store) :
    ∀ (items : List ReqItem) (t : Int) (infos : List ProcItem),
      validateItems uid store items = .ok (t, infos) →
      infos.map ProcItem.item_data = items ∧
      t = specTotal uid store items ∧
      ∀ info ∈ infos,
        (fetchProduct uid (info.item_data.product_id.getD 0) store).head? = some info.product ∧
        info.unit_price = effectiveUnitPrice info.item_data info.product ∧
        falsyNat info.item_data.product_id = false ∧
        falsyInt info.item_data.quantity = false ∧
        info.item_data.quantity.getD 0 ≤ info.product.stock := by
  intro items
  induction items with
  | nil =>
    intro t infos h
    simp only [validateItems, Except.ok.injEq, Prod.mk.injEq] at h
    obtain ⟨ht, hi⟩ := h
    subst ht; subst hi
    simp [specTotal]
  | cons item rest ih =>
    intro t infos h
    simp only [validateItems] at h
    split at h
    · exact absurd h (by simp)
    next hfal =>
      split at h
      · exact absurd h (by simp)
      next p ps hfp =>
        split at h
        · exact absurd h (by simp)
        next hstock =>
          split at h
          · exact absurd h (by simp)
          next t' infos' hrec =>
            simp only [Except.ok.injEq, Prod.mk.injEq] at h
            obtain ⟨ht, hi⟩ := h
            obtain ⟨ihmap, ihtot, ihall⟩ := ih t' infos' hrec
            subst ht
            subst hi
            refine ⟨by simp [ihmap], ?_, ?_⟩
            · simp only [specTotal, hfp, ← ihtot, effectiveUnitPrice]
            · intro info hinfo
              rcases List.mem_cons.mp hinfo with hh | hmem
              · subst hh
                simp only [Bool.or_eq_true, not_or] at hfal
                refine ⟨by simp [hfp], rfl, ?_, ?_, ?_⟩
                · exact Bool.not_eq_true _ ▸ Bool.of_not_eq_true hfal.1
                · exact Bool.of_not_eq_true hfal.2
                · exact Int.not_lt.mp hstock
              · exact ihall info hmem

/-- A successfully fetched product row belongs to the store and satisfies
the ownership-scoped filter. -/
theorem fetchProduct_head?_facts {uid pid : Nat} {store : Store} {p : Product}
    (h : (fetchProduct uid pid store).head? = some p) :
    p ∈ store.products ∧ p.id = pid ∧ p.user_id = uid := by
  have hmem := mem_of_head? h
  have := List.mem_filter.mp hmem
  refine ⟨this.1, ?_, ?_⟩
  · have := this.2
    simp only [Bool.and_eq_true, beq_iff_eq] at this
    exact this.1
  · have := this.2
    simp only [Bool.and_eq_true, beq_iff_eq] at this
    exact this.2

/-! ### Lemmas about the per-item stock updates -/

theorem stepProd_id (p : Product) (info : ProcItem) : (stepProd p info).id = p.id := by
  unfold stepProd
  split <;> rfl

theorem stepProd_of_ne {p : Product} {info : ProcItem}
    (h : info.product.id ≠ p.id) : stepProd p info = p := by
  unfold stepProd
  rw [if_neg]
  simp [beq_iff_eq]
  exact fun hc => absurd hc.symm h

/-- Folding whole-table updates equals mapping the per-row update fold. -/
theorem foldl_applyUpd_eq_map :
    ∀ (infos : List ProcItem) (ps : List Product),
      infos.foldl applyUpd ps = ps.map (fun p => infos.foldl stepProd p) := by
  intro infos
  induction infos with
  | nil => intro ps; simp [List.foldl]
  | cons i is ih =>
    intro ps
    rw [List.foldl_cons, ih (applyUpd ps i)]
    simp only [applyUpd, List.map_map]
    rfl

/-- A row matched by no update is unchanged by the fold. -/
theorem foldl_stepProd_of_not_touched :
    ∀ (infos : List ProcItem) (p : Product),
      (∀ info ∈ infos, info.product.id ≠ p.id) →
      infos.foldl stepProd p = p := by
  intro infos
  induction infos with
  | nil => intro p _; rfl
  | cons i is ih =>
    intro p h
    simp only [List.foldl_cons, stepProd_of_ne (h i (List.mem_cons_self i is))]
    exact ih p fun info hm => h info (List.mem_cons_of_mem i hm)

/-- A row matched by exactly the j-th update ends with that update's
snapshot-based stock value (later updates of other rows never revisit it). -/
theorem foldl_stepProd_unique :
    ∀ (infos : List ProcItem) (p : Product) (j : Nat) (hj : j < infos.length),
      (infos.get ⟨j, hj⟩).product.id = p.id →
      (∀ (i : Nat) (hi : i < infos.length), i ≠ j → (infos.get ⟨i, hi⟩).product.id ≠ p.id) →
      infos.foldl stepProd p =
        { p with stock := (infos.get ⟨j, hj⟩).product.stock -
            (infos.get ⟨j, hj⟩).item_data.quantity.getD 0 } := by
  intro infos
  induction infos with
  | nil => intro p j hj; exact absurd hj (by simp)
  | cons i is ih =>
    intro p j hj hmatch hothers
    cases j with
    | zero =>
      simp only [List.get] at hmatch
      simp only [List.foldl_cons]
      have hstep : stepProd p i = { p with stock := i.product.stock - i.item_data.quantity.getD 0 } := by
        unfold stepProd
        rw [if_pos (by simp [beq_iff_eq, hmatch])]
      rw [hstep]
      have : ∀ info ∈ is, info.product.id ≠ p.id := by
        intro info hm
        obtain ⟨⟨k, hk⟩, hget⟩ := List.mem_iff_get.mp hm
        have := hothers (k + 1) (by simpa using Nat.succ_lt_succ hk) (by simp)
        rw [← hget]
        simpa [List.get, List.get_eq_getElem] using this
      rw [foldl_stepProd_of_not_touched is _ (by simpa using this)]
      simp [List.get]
    | succ j0 =>
      have hne : i.product.id ≠ p.id := by
        have := hothers 0 (by simp) (by simp)
        simpa [List.get] using this
      simp only [List.foldl_cons, stepProd_of_ne hne]
      have hj0 : j0 < is.length := by simpa using Nat.lt_of_succ_lt_succ hj
      have := ih p j0 hj0 (by simpa [List.get] using hmatch)
        (fun k hk hkne => by
          have := hothers (k + 1) (by simpa using Nat.succ_lt_succ hk) (by simpa using hkne)
          simpa [List.get] using this)
      simpa [List.get] using this

theorem any_id_applyUpd (ps : List Product) (info : ProcItem) (x : Nat) :
    ((applyUpd ps info).any (fun p => p.id == x)) = (ps.any (fun p => p.id == x)) := by
  unfold applyUpd
  rw [List.any_map]
  congr 1
  funext p
  simp [Function.comp, stepProd_id]

/-! ### Lemmas about the per-item loop -/

/-- Step equation: a fully successful iteration. -/
theorem processItems_step_ok (env : Env) (sale : Sale) (info : ProcItem) (rest : List ProcItem)
    (idx : Nat) (store : Store) (h1 : env.itemInsertOk idx = true)
    (h2 : (env.stockUpdateOk idx && store.products.any (fun p => p.id == info.product.id)) = true) :
    processItems env sale (info :: rest) idx store =
      processItems env sale rest (idx + 1) (stepStore sale info store) := by
  simp only [processItems, h1, if_true]
  rw [if_pos h2]
  rfl

/-- Step equation: the sale-item insert is rejected. -/
theorem processItems_step_insert_fail (env : Env) (sale : Sale) (info : ProcItem)
    (rest : List ProcItem) (idx : Nat) (store : Store) (h1 : env.itemInsertOk idx = false) :
    processItems env sale (info :: rest) idx store =
      (.err 400 ("Error creando item para " ++ info.product.name),
       { store with sales := store.sales.filter (fun s => s.id != sale.id) }) := by
  simp only [processItems]
  rw [if_neg (by simp [h1])]

/-- Step equation: the insert succeeds but the stock update returns no row. -/
theorem processItems_step_update_fail (env : Env) (sale : Sale) (info : ProcItem)
    (rest : List ProcItem) (idx : Nat) (store : Store) (h1 : env.itemInsertOk idx = true)
    (h2 : (env.stockUpdateOk idx && store.products.any (fun p => p.id == info.product.id)) = false) :
    processItems env sale (info :: rest) idx store =
      (.err 400 ("Error actualizando stock para " ++ info.product.name),
       { store with
         sales := store.sales.filter (fun s => s.id != sale.id),
         sale_items := (store.sale_items ++ [mkSaleItem store sale info]).filter
           (fun x => x.sale_id != sale.id),
         next_item_id := store.next_item_id + 1 }) := by
  simp only [processItems, h1, if_true]
  rw [if_neg (by simp [h2])]

/-- A fully successful per-item loop returns the input sale, leaves the
sales table untouched, and leaves the products table exactly at the fold of
the per-item stock updates. -/
theorem processItems_ok_char (env : Env) (sale : Sale) :
    ∀ (infos : List ProcItem) (idx : Nat) (store : Store) (s : Sale) (store' : Store),
      processItems env sale infos idx store = (.ok s, store') →
      s = sale ∧ store'.sales = store.sales ∧
      store'.products = infos.foldl applyUpd store.products := by
  intro infos
  induction infos with
  | nil =>
    intro idx store s store' h
    simp only [processItems, Prod.mk.injEq, Resp.ok.injEq] at h
    exact ⟨h.1.symm, by rw [← h.2], by rw [← h.2]; rfl⟩
  | cons info rest ih =>
    intro idx store s store' h
    by_cases h1 : env.itemInsertOk idx = true
    · by_cases h2 :
        (env.stockUpdateOk idx && store.products.any (fun p => p.id == info.product.id)) = true
      · rw [processItems_step_ok env sale info rest idx store h1 h2] at h
        obtain ⟨hs, hsales, hprods⟩ := ih (idx + 1) (stepStore sale info store) s store' h
        exact ⟨hs, hsales, by rw [hprods]; rfl⟩
      · rw [processItems_step_update_fail env sale info rest idx store h1
          (Bool.not_eq_true _ ▸ h2)] at h
        exact absurd (congrArg Prod.fst h) (by simp)
    · rw [processItems_step_insert_fail env sale info rest idx store
        (Bool.not_eq_true _ ▸ h1)] at h
      exact absurd (congrArg Prod.fst h) (by simp)

/-- The per-item loop never invents sales rows. -/
theorem processItems_sales_subset (env : Env) (sale : Sale) :
    ∀ (infos : List ProcItem) (idx : Nat) (store : Store),
      (processItems env sale infos idx store).2.sales ⊆ store.sales := by
  intro infos
  induction infos with
  | nil => intro idx store; exact fun s hs => hs
  | cons info rest ih =>
    intro idx store
    by_cases h1 : env.itemInsertOk idx = true
    · by_cases h2 :
        (env.stockUpdateOk idx && store.products.any (fun p => p.id == info.product.id)) = true
      · rw [processItems_step_ok env sale info rest idx store h1 h2]
        intro s hs
        exact ih (idx + 1) (stepStore sale info store) hs
      · rw [processItems_step_update_fail env sale info rest idx store h1
          (Bool.not_eq_true _ ▸ h2)]
        intro s hs
        exact List.mem_of_mem_filter hs
    · rw [processItems_step_insert_fail env sale info rest idx store
        (Bool.not_eq_true _ ▸ h1)]
      intro s hs
      exact List.mem_of_mem_filter hs

/-- A product row whose id is matched by no processed item survives the
per-item loop unchanged, whatever the injected failures. -/
theorem processItems_preserve_product (env : Env) (sale : Sale) (p : Product) :
    ∀ (infos : List ProcItem) (idx : Nat) (store : Store),
      p ∈ store.products → (∀ info ∈ infos, info.product.id ≠ p.id) →
      p ∈ (processItems env sale infos idx store).2.products := by
  intro infos
  induction infos with
  | nil => intro idx store hp _; exact hp
  | cons info rest ih =>
    intro idx store hp hne
    by_cases h1 : env.itemInsertOk idx = true
    · by_cases h2 :
        (env.stockUpdateOk idx && store.products.any (fun p => p.id == info.product.id)) = true
      · rw [processItems_step_ok env sale info rest idx store h1 h2]
        refine ih (idx + 1) (stepStore sale info store) ?_
          (fun i hi => hne i (List.mem_cons_of_mem info hi))
        have hstep : stepProd p info = p := stepProd_of_ne (hne info (List.mem_cons_self info rest))
        exact List.mem_map.mpr ⟨p, hp, hstep⟩
      · rw [processItems_step_update_fail env sale info rest idx store h1
          (Bool.not_eq_true _ ▸ h2)]
        exact hp
    · rw [processItems_step_insert_fail env sale info rest idx store
        (Bool.not_eq_true _ ▸ h1)]
      exact hp

/-- A sales row with a different sale id survives the per-item loop. -/
theorem processItems_preserve_sale (env : Env) (sale : Sale) (s : Sale)
    (hs : s.id ≠ sale.id) :
    ∀ (infos : List ProcItem) (idx : Nat) (store : Store),
      s ∈ store.sales → s ∈ (processItems env sale infos idx store).2.sales := by
  intro infos
  induction infos with
  | nil => intro idx store h; exact h
  | cons info rest ih =>
    intro idx store h
    by_cases h1 : env.itemInsertOk idx = true
    · by_cases h2 :
        (env.stockUpdateOk idx && store.products.any (fun p => p.id == info.product.id)) = true
      · rw [processItems_step_ok env sale info rest idx store h1 h2]
        exact ih (idx + 1) (stepStore sale info store) h
      · rw [processItems_step_update_fail env sale info rest idx store h1
          (Bool.not_eq_true _ ▸ h2)]
        exact List.mem_filter.mpr ⟨h, by simp [hs]⟩
    · rw [processItems_step_insert_fail env sale info rest idx store
        (Bool.not_eq_true _ ▸ h1)]
      exact List.mem_filter.mpr ⟨h, by simp [hs]⟩

/-- A sale-items row of a different sale survives the per-item loop. -/
theorem processItems_preserve_item (env : Env) (sale : Sale) (x : SaleItem)
    (hx : x.sale_id ≠ sale.id) :
    ∀ (infos : List ProcItem) (idx : Nat) (store : Store),
      x ∈ store.sale_items → x ∈ (processItems env sale infos idx store).2.sale_items := by
  intro infos
  induction infos with
  | nil => intro idx store h; exact h
  | cons info rest ih =>
    intro idx store h
    by_cases h1 : env.itemInsertOk idx = true
    · by_cases h2 :
        (env.stockUpdateOk idx && store.products.any (fun p => p.id == info.product.id)) = true
      · rw [processItems_step_ok env sale info rest idx store h1 h2]
        exact ih (idx + 1) (stepStore sale info store) (List.mem_append_left _ h)
      · rw [processItems_step_update_fail env sale info rest idx store h1
          (Bool.not_eq_true _ ▸ h2)]
        exact List.mem_filter.mpr ⟨List.mem_append_left _ h, by simp [hx]⟩
    · rw [processItems_step_insert_fail env sale info rest idx store
        (Bool.not_eq_true _ ▸ h1)]
      exact h

/-- Scenario: the k-th sale-item insert is rejected (everything before it
succeeded).  The loop stops with the error naming the k-th product and the
sales table ends filtered by the compensating delete of the header. -/
theorem processItems_insert_fail (env : Env) (sale : Sale) :
    ∀ (infos : List ProcItem) (k : Nat) (hk : k < infos.length) (idx : Nat) (store : Store),
      (∀ j, j < k → env.itemInsertOk (idx + j) = true) →
      (∀ j, j < k → env.stockUpdateOk (idx + j) = true) →
      env.itemInsertOk (idx + k) = false →
      (∀ info ∈ infos, store.products.any (fun p => p.id == info.product.id) = true) →
      ∃ store',
        processItems env sale infos idx store =
          (.err 400 ("Error creando item para " ++ (infos.get ⟨k, hk⟩).product.name), store') ∧
        store'.sales = store.sales.filter (fun s => s.id != sale.id) := by
  intro infos
  induction infos with
  | nil => intro k hk; exact absurd hk (by simp)
  | cons info rest ih =>
    intro k hk idx store hins hupd hfail hany
    cases k with
    | zero =>
      rw [Nat.add_zero] at hfail
      rw [processItems_step_insert_fail env sale info rest idx store hfail]
      exact ⟨_, rfl, rfl⟩
    | succ k0 =>
      have h0ins : env.itemInsertOk idx = true := by
        have := hins 0 (Nat.succ_pos k0); rwa [Nat.add_zero] at this
      have h0upd : env.stockUpdateOk idx = true := by
        have := hupd 0 (Nat.succ_pos k0); rwa [Nat.add_zero] at this
      have hanyhead := hany info (List.mem_cons_self info rest)
      rw [processItems_step_ok env sale info rest idx store h0ins (by simp [h0upd, hanyhead])]
      have hk0 : k0 < rest.length := by simpa using Nat.lt_of_succ_lt_succ hk
      have hgeteq : ((info :: rest).get ⟨k0 + 1, hk⟩) = rest.get ⟨k0, hk0⟩ := rfl
      rw [hgeteq]
      obtain ⟨store', heq, hsales⟩ := ih k0 hk0 (idx + 1) (stepStore sale info store)
        (fun j hj => by
          have := hins (j + 1) (Nat.succ_lt_succ hj)
          rwa [show idx + (j + 1) = idx + 1 + j by omega] at this)
        (fun j hj => by
          have := hupd (j + 1) (Nat.succ_lt_succ hj)
          rwa [show idx + (j + 1) = idx + 1 + j by omega] at this)
        (by rwa [show idx + 1 + k0 = idx + (k0 + 1) by omega])
        (fun i hi => by
          have := hany i (List.mem_cons_of_mem info hi)
          simpa [stepStore, any_id_applyUpd] using this)
      exact ⟨store', heq, hsales⟩

/-- Scenario: the k-th stock update is rejected (the k-th insert and
everything before succeeded).  The loop stops with the error naming the
k-th product; the compensating deletes leave the sales and sale-items
tables filtered by the sale id; the stock decrements of the first k items
stay applied. -/
theorem processItems_update_fail (env : Env) (sale : Sale) :
    ∀ (infos : List ProcItem) (k : Nat) (hk : k < infos.length) (idx : Nat) (store : Store),
      (∀ j, j ≤ k → env.itemInsertOk (idx + j) = true) →
      (∀ j, j < k → env.stockUpdateOk (idx + j) = true) →
      env.stockUpdateOk (idx + k) = false →
      (∀ info ∈ infos, store.products.any (fun p => p.id == info.product.id) = true) →
      ∃ store',
        processItems env sale infos idx store =
          (.err 400 ("Error actualizando stock para " ++ (infos.get ⟨k, hk⟩).product.name),
           store') ∧
        store'.sales = store.sales.filter (fun s => s.id != sale.id) ∧
        store'.sale_items = store.sale_items.filter (fun x => x.sale_id != sale.id) ∧
        store'.products = (infos.take k).foldl applyUpd store.products := by
  intro infos
  induction infos with
  | nil => intro k hk; exact absurd hk (by simp)
  | cons info rest ih =>
    intro k hk idx store hins hupd hfail hany
    cases k with
    | zero =>
      have h0ins : env.itemInsertOk idx = true := by
        have := hins 0 (Nat.le_refl 0); rwa [Nat.add_zero] at this
      rw [Nat.add_zero] at hfail
      rw [processItems_step_update_fail env sale info rest idx store h0ins (by simp [hfail])]
      refine ⟨_, rfl, rfl, ?_, rfl⟩
      simp [List.filter_append, mkSaleItem]
    | succ k0 =>
      have h0ins : env.itemInsertOk idx = true := by
        have := hins 0 (Nat.zero_le _); rwa [Nat.add_zero] at this
      have h0upd : env.stockUpdateOk idx = true := by
        have := hupd 0 (Nat.succ_pos k0); rwa [Nat.add_zero] at this
      have hanyhead := hany info (List.mem_cons_self info rest)
      rw [processItems_step_ok env sale info rest idx store h0ins (by simp [h0upd, hanyhead])]
      have hk0 : k0 < rest.length := by simpa using Nat.lt_of_succ_lt_succ hk
      have hgeteq : ((info :: rest).get ⟨k0 + 1, hk⟩) = rest.get ⟨k0, hk0⟩ := rfl
      rw [hgeteq]
      obtain ⟨store', heq, hsales, hitems, hprods⟩ := ih k0 hk0 (idx + 1) (stepStore sale info store)
        (fun j hj => by
          have := hins (j + 1) (Nat.succ_le_succ hj)
          rwa [show idx + (j + 1) = idx + 1 + j by omega] at this)
        (fun j hj => by
          have := hupd (j + 1) (Nat.succ_lt_succ hj)
          rwa [show idx + (j + 1) = idx + 1 + j by omega] at this)
        (by rwa [show idx + 1 + k0 = idx + (k0 + 1) by omega])
        (fun i hi => by
          have := hany i (List.mem_cons_of_mem info hi)
          simpa [stepStore, any_id_applyUpd] using this)
      refine ⟨store', heq, hsales, ?_, ?_⟩
      · rw [hitems]
        simp [stepStore, List.filter_append, mkSaleItem]
      · rw [hprods]
        rfl

/-! ### Lemmas about the whole handler -/

/-- The validation loop only ever fails with an `err` response. -/
theorem validateItems_error_shape (uid : Nat) (store : Store) :
    ∀ (items : List ReqItem) (e : Resp),
      validateItems uid store items = .error e → ∃ c m, e = .err c m := by
  intro items
  induction items with
  | nil => intro e h; exact absurd h (by simp [validateItems])
  | cons item rest ih =>
    intro e h
    simp only [validateItems] at h
    split at h
    · exact ⟨400, _, by simpa using h.symm⟩
    · split at h
      · exact ⟨404, _, by simpa using h.symm⟩
      · split at h
        · exact ⟨400, _, by simpa using h.symm⟩
        · split at h
          next e' he' =>
            have hee : e' = e := by simpa using h
            exact hee ▸ ih e' he'
          · exact absurd h (by simp)

/-- Unfolding `create_sale` on the path where validation passed and the
header insert succeeded. -/
theorem create_sale_ok_unfold (env : Env) (uid : Nat) (data : SaleRequest) (store : Store)
    (items : List ReqItem) (t : Int) (infos : List ProcItem)
    (hitems : data.items = some items) (hne : items.isEmpty = false)
    (hval : validateItems uid store items = .ok (t, infos))
    (hsi : env.saleInsertOk = true) :
    create_sale env uid data store =
      processItems env (newSale uid data store t) infos 0
        (insertHeader (newSale uid data store t) store) := by
  unfold create_sale
  rw [hitems]
  simp only [hne, Bool.false_eq_true, if_false, hval, hsi, if_true]

/-- Unfolding `create_sale` on the path where validation failed. -/
theorem create_sale_err_unfold (env : Env) (uid : Nat) (data : SaleRequest) (store : Store)
    (items : List ReqItem) (e : Resp)
    (hitems : data.items = some items) (hne : items.isEmpty = false)
    (hval : validateItems uid store items = .error e) :
    create_sale env uid data store = (e, store) := by
  unfold create_sale
  rw [hitems]
  simp only [hne, Bool.false_eq_true, if_false, hval]

/-- Inverting a successful `create_sale` run. -/
theorem create_sale_ok_inversion (env : Env) (uid : Nat) (data : SaleRequest) (store : Store)
    (s : Sale) (store' : Store)
    (h : create_sale env uid data store = (.ok s, store')) :
    ∃ items t infos, data.items = some items ∧ items.isEmpty = false ∧
      validateItems uid store items = .ok (t, infos) ∧ env.saleInsertOk = true ∧
      processItems env (newSale uid data store t) infos 0
        (insertHeader (newSale uid data store t) store) = (.ok s, store') := by
  unfold create_sale at h
  split at h
  · exact absurd (congrArg Prod.fst h) (by simp)
  next items heq =>
    split at h
    · exact absurd (congrArg Prod.fst h) (by simp)
    next hne =>
      split at h
      next e hval =>
        obtain ⟨c, m, hcm⟩ := validateItems_error_shape uid store items e hval
        have hfst := congrArg Prod.fst h
        rw [hcm] at hfst
        exact absurd hfst (by simp)
      next t infos hval =>
        split at h
        next hsi =>
          exact ⟨items, t, infos, heq, by simpa using hne, hval, hsi, h⟩
        next hsi =>
          exact absurd (congrArg Prod.fst h) (by simp)

/-- When every item is well-formed and resolves to an owned product, but
some item asks for more than the available stock, the validation loop stops
at the first such item with the insufficient-stock error naming that item's
product and its current stock. -/
theorem validateItems_insufficient (uid : Nat) (store : Store) :
    ∀ (items : List ReqItem),
      (∀ it ∈ items, falsyNat it.product_id = false ∧ falsyInt it.quantity = false ∧
        fetchProduct uid (it.product_id.getD 0) store ≠ []) →
      (∃ it ∈ items, ∃ p, (fetchProduct uid (it.product_id.getD 0) store).head? = some p ∧
        p.stock < it.quantity.getD 0) →
      ∃ it ∈ items, ∃ p, (fetchProduct uid (it.product_id.getD 0) store).head? = some p ∧
        p.stock < it.quantity.getD 0 ∧
        validateItems uid store items = .error (.err 400 ("Stock insuficiente para " ++ p.name ++
          ". Stock disponible: " ++ toString p.stock)) := by
  intro items
  induction items with
  | nil => intro _ hex; simp at hex
  | cons item rest ih =>
    intro hwf hex
    obtain ⟨hfal1, hfal2, hfetch⟩ := hwf item (List.mem_cons_self item rest)
    cases hfp : fetchProduct uid (item.product_id.getD 0) store with
    | nil => exact absurd hfp hfetch
    | cons p ps =>
      by_cases hst : p.stock < item.quantity.getD 0
      · refine ⟨item, List.mem_cons_self item rest, p, by rw [hfp]; rfl, hst, ?_⟩
        unfold validateItems
        rw [if_neg (by simp [hfal1, hfal2]), hfp]
        dsimp only
        rw [if_pos hst]
      · have hrest : ∃ it ∈ rest, ∃ p,
            (fetchProduct uid (it.product_id.getD 0) store).head? = some p ∧
            p.stock < it.quantity.getD 0 := by
          obtain ⟨it, hit, q, hq, hqst⟩ := hex
          rcases List.mem_cons.mp hit with hh | hm
          · subst hh
            rw [hfp] at hq
            simp only [List.head?_cons, Option.some.injEq] at hq
            exact absurd (hq ▸ hqst) hst
          · exact ⟨it, hm, q, hq, hqst⟩
        obtain ⟨it, hit, q, hq, hqst, hrec⟩ :=
          ih (fun x hx => hwf x (List.mem_cons_of_mem item hx)) hrest
        refine ⟨it, List.mem_cons_of_mem item hit, q, hq, hqst, ?_⟩
        unfold validateItems
        rw [if_neg (by simp [hfal1, hfal2]), hfp]
        dsimp only
        rw [if_neg hst, hrec]

/-- A request containing a falsy item (missing product id or missing/zero
quantity) can never pass the validation loop. -/
theorem validateItems_falsy_fails (uid : Nat) (store : Store) :
    ∀ (items : List ReqItem),
      (∃ it ∈ items, (falsyNat it.product_id || falsyInt it.quantity) = true) →
      ∃ e, validateItems uid store items = .error e := by
  intro items
  induction items with
  | nil => intro hex; simp at hex
  | cons item rest ih =>
    intro hex
    by_cases hfal : (falsyNat item.product_id || falsyInt item.quantity) = true
    · exact ⟨_, by unfold validateItems; rw [if_pos hfal]⟩
    · have hrest : ∃ it ∈ rest, (falsyNat it.product_id || falsyInt it.quantity) = true := by
        obtain ⟨it, hit, hfit⟩ := hex
        rcases List.mem_cons.mp hit with hh | hm
        · exact absurd (hh ▸ hfit) hfal
        · exact ⟨it, hm, hfit⟩
      cases hfp : fetchProduct uid (item.product_id.getD 0) store with
      | nil => exact ⟨_, by unfold validateItems; rw [if_neg hfal, hfp]⟩
      | cons p ps =>
        by_cases hst : p.stock < item.quantity.getD 0
        · exact ⟨_, by
            unfold validateItems
            rw [if_neg hfal, hfp]
            dsimp only
            rw [if_pos hst]⟩
        · obtain ⟨e, he⟩ := ih hrest
          exact ⟨e, by
            unfold validateItems
            rw [if_neg hfal, hfp]
            dsimp only
            rw [if_neg hst, he]⟩

/-! ### Lemmas about the top-products aggregation -/

theorem totalQtyFor_append (rows : List FetchedItem) (r : FetchedItem) (n : String) :
    totalQtyFor (rows ++ [r]) n =
      totalQtyFor rows n + (if (productNameOf r == n) = true then r.quantity else 0) := by
  unfold totalQtyFor
  rw [List.filter_append, List.map_append, List.sum_append]
  congr 1
  by_cases h : (productNameOf r == n) = true
  · simp [List.filter_cons, h]
  · simp [List.filter_cons, h]

theorem totalRevFor_append (rows : List FetchedItem) (r : FetchedItem) (n : String) :
    totalRevFor (rows ++ [r]) n =
      totalRevFor rows n +
        (if (productNameOf r == n) = true then r.quantity * r.unit_price else 0) := by
  unfold totalRevFor
  rw [List.filter_append, List.map_append, List.sum_append]
  congr 1
  by_cases h : (productNameOf r == n) = true
  · simp [List.filter_cons, h]
  · simp [List.filter_cons, h]

theorem updEntry_name (row : FetchedItem) (e : TopEntry) :
    (updEntry row e).name = e.name := by
  unfold updEntry
  split <;> rfl

/-- The set of names present in the mapping after one aggregation step. -/
theorem addItem_any_name (acc : List TopEntry) (r : FetchedItem) (n : String) :
    ((addItem acc r).any (fun e => e.name == n)) =
      (acc.any (fun e => e.name == n) || (productNameOf r == n)) := by
  unfold addItem
  split
  next hin =>
    rw [List.any_map]
    have hcomp : ((fun e : TopEntry => e.name == n) ∘ updEntry r) =
        fun e : TopEntry => e.name == n := by
      funext e
      simp [Function.comp, updEntry_name]
    rw [hcomp]
    by_cases hrn : (productNameOf r == n) = true
    · have heq : n = productNameOf r := (beq_iff_eq.mp hrn).symm
      have hacc : acc.any (fun e => e.name == n) = true := by rw [heq]; exact hin
      rw [hacc, hrn]
      rfl
    · have hrn' : (productNameOf r == n) = false := Bool.not_eq_true _ ▸ hrn
      rw [hrn', Bool.or_false]
  next hin =>
    rw [List.any_append]
    simp

/-- Invariant of the aggregation loop: every accumulator entry holds exactly
the totals of the rows already processed, and a name absent from the
accumulator has zero processed totals. -/
theorem foldl_addItem_spec :
    ∀ (rows : List FetchedItem) (acc : List TopEntry) (done : List FetchedItem),
      (∀ e ∈ acc, e.quantity = totalQtyFor done e.name ∧ e.revenue = totalRevFor done e.name) →
      (∀ n, acc.any (fun e => e.name == n) = false →
        totalQtyFor done n = 0 ∧ totalRevFor done n = 0) →
      ∀ e ∈ rows.foldl addItem acc,
        e.quantity = totalQtyFor (done ++ rows) e.name ∧
        e.revenue = totalRevFor (done ++ rows) e.name := by
  intro rows
  induction rows with
  | nil => intro acc done h1 _ e he; simpa using h1 e he
  | cons r rs ih =>
    intro acc done h1 h2 e he
    rw [List.foldl_cons] at he
    have hassoc : done ++ r :: rs = (done ++ [r]) ++ rs := by simp
    rw [hassoc]
    refine ih (addItem acc r) (done ++ [r]) ?_ ?_ e he
    · intro e' he'
      unfold addItem at he'
      split at he'
      next hin =>
        obtain ⟨e0, he0, himg⟩ := List.mem_map.mp he'
        obtain ⟨hq0, hr0⟩ := h1 e0 he0
        unfold updEntry at himg
        by_cases hname : (e0.name == productNameOf r) = true
        · rw [if_pos hname] at himg
          have hnameeq : e0.name = productNameOf r := beq_iff_eq.mp hname
          constructor
          · rw [← himg]
            show e0.quantity + r.quantity = totalQtyFor (done ++ [r]) e0.name
            rw [totalQtyFor_append, if_pos (by simp [hnameeq]), hq0]
          · rw [← himg]
            show e0.revenue + r.quantity * r.unit_price = totalRevFor (done ++ [r]) e0.name
            rw [totalRevFor_append, if_pos (by simp [hnameeq]), hr0]
        · rw [if_neg hname] at himg
          have hname' : e0.name ≠ productNameOf r := fun hc => hname (beq_iff_eq.mpr hc)
          have hne : (productNameOf r == e0.name) = false :=
            beq_eq_false_iff_ne.mpr (fun hc => hname' hc.symm)
          constructor
          · rw [← himg, totalQtyFor_append, hne, hq0]
            simp
          · rw [← himg, totalRevFor_append, hne, hr0]
            simp
      next hin =>
        rcases List.mem_append.mp he' with hacc | hnew
        · have hnot := List.any_eq_false.mp (Bool.not_eq_true _ ▸ hin) e' hacc
          have hne0 : e'.name ≠ productNameOf r := fun hc => hnot (beq_iff_eq.mpr hc)
          have hne : (productNameOf r == e'.name) = false :=
            beq_eq_false_iff_ne.mpr (fun hc => hne0 hc.symm)
          obtain ⟨hq0, hr0⟩ := h1 e' hacc
          constructor
          · rw [totalQtyFor_append, hne, hq0]; simp
          · rw [totalRevFor_append, hne, hr0]; simp
        · have he'' : e' = ⟨productNameOf r, r.quantity, r.quantity * r.unit_price⟩ := by
            simpa using hnew
          obtain ⟨hz1, hz2⟩ := h2 (productNameOf r) (Bool.not_eq_true _ ▸ hin)
          subst he''
          constructor
          · show r.quantity = totalQtyFor (done ++ [r]) (productNameOf r)
            rw [totalQtyFor_append, if_pos (by simp), hz1]
            simp
          · show r.quantity * r.unit_price = totalRevFor (done ++ [r]) (productNameOf r)
            rw [totalRevFor_append, if_pos (by simp), hz2]
            simp
    · intro n hn
      rw [addItem_any_name] at hn
      have hpair := Bool.or_eq_false_iff.mp hn
      obtain ⟨hz1, hz2⟩ := h2 n hpair.1
      rw [totalQtyFor_append, totalRevFor_append, hpair.2, hz1, hz2]
      simp

/-- Every entry of the aggregation holds the per-name quantity and revenue
totals over the fetched rows. -/
theorem aggregate_spec (rows : List FetchedItem) :
    ∀ e ∈ aggregate rows,
      e.quantity = totalQtyFor rows e.name ∧ e.revenue = totalRevFor rows e.name := by
  intro e he
  have := foldl_addItem_spec rows [] []
    (by intro e' he'; simp at he')
    (by intro n _; exact ⟨rfl, rfl⟩)
    e he
  simpa using this

/-! ### Support for the per-product stock statements -/

theorem validateItems_info_product (uid : Nat) (store : Store) {items : List ReqItem}
    {t : Int} {infos : List ProcItem}
    (hval : validateItems uid store items = .ok (t, infos)) :
    ∀ info ∈ infos, info.product ∈ store.products ∧
      info.product.id = info.item_data.product_id.getD 0 ∧ info.product.user_id = uid := by
  intro info hm
  obtain ⟨-, -, hall⟩ := validateItems_ok_spec uid store items t infos hval
  obtain ⟨hh, -, -, -, -⟩ := hall info hm
  exact fetchProduct_head?_facts hh

/-- The ids of the fetched products are exactly the request's product ids,
in order. -/
theorem validateItems_pids (uid : Nat) (store : Store) {items : List ReqItem}
    {t : Int} {infos : List ProcItem}
    (hval : validateItems uid store items = .ok (t, infos)) :
    infos.map (fun i => i.product.id) = items.map (fun it => it.product_id.getD 0) := by
  obtain ⟨hmap, -, -⟩ := validateItems_ok_spec uid store items t infos hval
  rw [← hmap, List.map_map]
  exact List.map_congr_left (fun info hm =>
    (validateItems_info_product uid store hval info hm).2.1)

theorem nodup_map_getfn {α : Type} {β : Type} (f : α → β) (l : List α)
    (h : (l.map f).Nodup) (i j : Nat) (hi : i < l.length) (hj : j < l.length)
    (hne : i ≠ j) : f (l.get ⟨i, hi⟩) ≠ f (l.get ⟨j, hj⟩) := by
  intro heq
  have h1 : (l.map f).get ⟨i, by simpa using hi⟩ = (l.map f).get ⟨j, by simpa using hj⟩ := by
    rw [List.get_map, List.get_map]
    exact heq
  have := (List.Nodup.get_inj_iff h).mp h1
  exact hne (by simpa using this)

/-- After folding the per-item stock updates over a list of items with
pairwise distinct product ids, the j-th item's product row carries exactly
the snapshot stock minus the j-th quantity. -/
theorem foldl_applyUpd_get (infos : List ProcItem) (ps : List Product)
    (hnodup : (infos.map (fun i => i.product.id)).Nodup)
    (j : Nat) (hj : j < infos.length)
    (hmem : (infos.get ⟨j, hj⟩).product ∈ ps) :
    ∃ p' ∈ infos.foldl applyUpd ps,
      p'.id = (infos.get ⟨j, hj⟩).product.id ∧
      p'.stock = (infos.get ⟨j, hj⟩).product.stock -
        (infos.get ⟨j, hj⟩).item_data.quantity.getD 0 := by
  rw [foldl_applyUpd_eq_map]
  refine ⟨_, List.mem_map_of_mem (fun p => infos.foldl stepProd p) hmem, ?_⟩
  have hfold := foldl_stepProd_unique infos ((infos.get ⟨j, hj⟩).product) j hj rfl
    (fun i hi hine => nodup_map_getfn (fun x => x.product.id) infos hnodup i j hi hj hine)
  show (List.foldl stepProd ((infos.get ⟨j, hj⟩).product) infos).id = _ ∧
    (List.foldl stepProd ((infos.get ⟨j, hj⟩).product) infos).stock = _
  rw [hfold]
  exact ⟨rfl, rfl⟩

/-! ### Concrete instances used by the claim witnesses -/

/-- A store with two products owned by user 1. -/
def wStore : Store :=
  ⟨[⟨1, 1, "Cafe", 10, 8, "", 5⟩, ⟨2, 1, "Te", 4, 6, "", 5⟩], [], [], 1, 1⟩

/-- A two-item request (catalog price for the first item, caller price for
the second) carrying a client total of 999 that the handler must ignore. -/
def wReq : SaleRequest :=
  ⟨some [⟨some 1, some 2, none⟩, ⟨some 2, some 3, some 5⟩], none, some 999⟩

/-- A request asking for more than the available stock. -/
def wReqBig : SaleRequest := ⟨some [⟨some 1, some 100, none⟩], none, none⟩

/-! ### Claims -/

/-- C1: for every sale request that succeeds, the persisted Sale's total
equals the sum over the request's items of (effective unit price times
quantity), the effective unit price being the caller-supplied `unit_price`
when present and the product's current catalog price otherwise; any
client-supplied total is ignored (the request's `total` field is
universally quantified and never read) and the server-computed value is
what is persisted. -/
theorem c1_server_side_total (env : Env) (uid : Nat) (data : SaleRequest) (store : Store)
    (sale : Sale) (store' : Store)
    (h : create_sale env uid data store = (.ok sale, store')) :
    ∃ items, data.items = some items ∧
      sale.total = specTotal uid store items ∧ sale ∈ store'.sales := by
  obtain ⟨items, t, infos, hitems, hne, hval, hsi, hproc⟩ :=
    create_sale_ok_inversion env uid data store sale store' h
  obtain ⟨hmap, htot, hall⟩ := validateItems_ok_spec uid store items t infos hval
  obtain ⟨hs, hsales, hprods⟩ := processItems_ok_char env _ infos 0 _ sale store' hproc
  refine ⟨items, hitems, ?_, ?_⟩
  · rw [hs]
    show t = specTotal uid store items
    exact htot
  · rw [hsales, hs]
    show newSale uid data store t ∈ store.sales ++ [newSale uid data store t]
    exact List.mem_append_right _ (by simp)

/-- Witness for C1 at a concrete run: total 35 = 10 * 2 + 5 * 3, with the
client-supplied total 999 ignored. -/
theorem c1_server_side_total_witness :
    ∃ items, wReq.items = some items ∧
      (Sale.mk 1 35 none 1).total = specTotal 1 wStore items ∧
      Sale.mk 1 35 none 1 ∈ (create_sale envAllOk 1 wReq wStore).2.sales :=
  c1_server_side_total envAllOk 1 wReq wStore ⟨1, 35, none, 1⟩
    (create_sale envAllOk 1 wReq wStore).2 (by decide)

/-- C2: a sale request whose items are all well-formed and resolve to owned
products, but in which some item's product has stock strictly below the
requested quantity, fails with the insufficient-stock error naming that
product and its current stock, and the store is completely unchanged (no
Sale row, no SaleItem row, no stock mutation). -/
theorem c2_insufficient_stock (env : Env) (uid : Nat) (data : SaleRequest) (store : Store)
    (items : List ReqItem)
    (hitems : data.items = some items)
    (hwf : ∀ it ∈ items, falsyNat it.product_id = false ∧ falsyInt it.quantity = false ∧
      fetchProduct uid (it.product_id.getD 0) store ≠ [])
    (hex : ∃ it ∈ items, ∃ p, (fetchProduct uid (it.product_id.getD 0) store).head? = some p ∧
      p.stock < it.quantity.getD 0) :
    ∃ it ∈ items, ∃ p, (fetchProduct uid (it.product_id.getD 0) store).head? = some p ∧
      p.stock < it.quantity.getD 0 ∧
      create_sale env uid data store =
        (.err 400 ("Stock insuficiente para " ++ p.name ++ ". Stock disponible: " ++
          toString p.stock), store) := by
  obtain ⟨it, hit, p, hp, hst, hval⟩ := validateItems_insufficient uid store items hwf hex
  have hne : items.isEmpty = false := by
    cases items with
    | nil => simp at hit
    | cons a l => rfl
  exact ⟨it, hit, p, hp, hst,
    create_sale_err_unfold env uid data store items _ hitems hne hval⟩

/-- Witness for C2: requesting 100 units of a product with stock 8 yields
the insufficient-stock error and leaves the store untouched. -/
theorem c2_insufficient_stock_witness :
    ∃ it ∈ [(⟨some 1, some 100, none⟩ : ReqItem)], ∃ p : Product,
      (fetchProduct 1 (it.product_id.getD 0) wStore).head? = some p ∧
      p.stock < it.quantity.getD 0 ∧
      create_sale envAllOk 1 wReqBig wStore =
        (.err 400 ("Stock insuficiente para " ++ p.name ++ ". Stock disponible: " ++
          toString p.stock), wStore) :=
  c2_insufficient_stock envAllOk 1 wReqBig wStore [⟨some 1, some 100, none⟩] rfl
    (by decide)
    ⟨⟨some 1, some 100, none⟩, by decide, ⟨1, 1, "Cafe", 10, 8, "", 5⟩, by decide, by decide⟩

theorem infos_any_products (uid : Nat) (store : Store) {items : List ReqItem} {t : Int}
    {infos : List ProcItem} (hval : validateItems uid store items = .ok (t, infos)) :
    ∀ info ∈ infos, (store.products.any (fun p => p.id == info.product.id)) = true := by
  intro info hm
  obtain ⟨hmem, -, -⟩ := validateItems_info_product uid store hval info hm
  exact List.any_eq_true.mpr ⟨info.product, hmem, by simp⟩

theorem items_isEmpty_false_of_infos {uid : Nat} {store : Store} {items : List ReqItem}
    {t : Int} {infos : List ProcItem}
    (hval : validateItems uid store items = .ok (t, infos)) (h : infos ≠ []) :
    items.isEmpty = false := by
  obtain ⟨hmap, -, -⟩ := validateItems_ok_spec uid store items t infos hval
  cases items with
  | cons a l => rfl
  | nil =>
    cases infos with
    | nil => exact absurd rfl h
    | cons i l => simp at hmap

/-- C3: when the sale header was inserted but the k-th sale-item insert is
rejected (everything earlier succeeded), `create_sale` fires the
compensating delete of the header: it returns the error naming the k-th
item's product, the sales table is exactly what it was before the call, and
in particular no sale header with the new sale id remains persisted. -/
theorem c3_item_insert_fail_compensates (env : Env) (uid : Nat) (data : SaleRequest)
    (store : Store) (items : List ReqItem) (t : Int) (infos : List ProcItem) (k : Nat)
    (hwf : store.WF)
    (hitems : data.items = some items)
    (hval : validateItems uid store items = .ok (t, infos))
    (hsi : env.saleInsertOk = true)
    (hk : k < infos.length)
    (hins : ∀ j, j < k → env.itemInsertOk j = true)
    (hupd : ∀ j, j < k → env.stockUpdateOk j = true)
    (hfail : env.itemInsertOk k = false) :
    ∃ store',
      create_sale env uid data store =
        (.err 400 ("Error creando item para " ++ (infos.get ⟨k, hk⟩).product.name), store') ∧
      store'.sales = store.sales ∧
      ∀ s ∈ store'.sales, s.id ≠ store.next_sale_id := by
  have hne : items.isEmpty = false :=
    items_isEmpty_false_of_infos hval (by intro hc; subst hc; simp at hk)
  rw [create_sale_ok_unfold env uid data store items t infos hitems hne hval hsi]
  obtain ⟨store', heq, hsales⟩ := processItems_insert_fail env (newSale uid data store t)
    infos k hk 0 (insertHeader (newSale uid data store t) store)
    (fun j hj => by simpa using hins j hj)
    (fun j hj => by simpa using hupd j hj)
    (by simpa using hfail)
    (fun info hm => infos_any_products uid store hval info hm)
  have hsalesEq : store'.sales = store.sales := by
    rw [hsales]
    show ((store.sales ++ [newSale uid data store t]).filter
      (fun s => s.id != (newSale uid data store t).id)) = store.sales
    rw [List.filter_append]
    have h2 : [newSale uid data store t].filter
        (fun s => s.id != (newSale uid data store t).id) = [] := by simp
    have h1 : store.sales.filter (fun s => s.id != (newSale uid data store t).id)
        = store.sales := by
      rw [List.filter_eq_self]
      intro s hs
      have hlt := hwf.1 s hs
      show (s.id != store.next_sale_id) = true
      simp only [bne_iff_ne, ne_eq]
      omega
    rw [h1, h2, List.append_nil]
  exact ⟨store', heq, hsalesEq, fun s hs => by
    rw [hsalesEq] at hs
    have := hwf.1 s hs
    omega⟩

/-- Injected failure on the second of two sale-item inserts. -/
def wEnvItemFail : Env := ⟨true, fun j => j != 1, fun _ => true⟩

/-- Injected failure on the second of two stock updates. -/
def wEnvUpdFail : Env := ⟨true, fun _ => true, fun j => j != 1⟩

/-- The processed items of `wReq` against `wStore`. -/
def wInfos : List ProcItem :=
  [⟨⟨1, 1, "Cafe", 10, 8, "", 5⟩, ⟨some 1, some 2, none⟩, 10⟩,
   ⟨⟨2, 1, "Te", 4, 6, "", 5⟩, ⟨some 2, some 3, some 5⟩, 5⟩]

/-- Witness for C3: the second item insert fails, the error names "Te" and
the sale row is gone. -/
theorem c3_item_insert_fail_compensates_witness :
    ∃ store',
      create_sale wEnvItemFail 1 wReq wStore =
        (.err 400 "Error creando item para Te", store') ∧
      store'.sales = wStore.sales ∧
      ∀ s ∈ store'.sales, s.id ≠ wStore.next_sale_id :=
  c3_item_insert_fail_compensates wEnvItemFail 1 wReq wStore
    [⟨some 1, some 2, none⟩, ⟨some 2, some 3, some 5⟩] 35 wInfos 1
    (by decide) rfl rfl rfl (by decide)
    (fun j hj => by
      have hj0 : j = 0 := Nat.lt_one_iff.mp hj
      subst hj0; rfl)
    (fun j hj => rfl)
    rfl

/-- C4: when the sale header and the sale-item inserts up to the k-th
succeeded but the k-th stock update is rejected, `create_sale` deletes the
sale header and all the sale's item rows: it returns the error naming the
k-th item's product and both the sales and sale-items tables are exactly
what they were before the call. -/
theorem c4_stock_update_fail_compensates (env : Env) (uid : Nat) (data : SaleRequest)
    (store : Store) (items : List ReqItem) (t : Int) (infos : List ProcItem) (k : Nat)
    (hwf : store.WF)
    (hitems : data.items = some items)
    (hval : validateItems uid store items = .ok (t, infos))
    (hsi : env.saleInsertOk = true)
    (hk : k < infos.length)
    (hins : ∀ j, j ≤ k → env.itemInsertOk j = true)
    (hupd : ∀ j, j < k → env.stockUpdateOk j = true)
    (hfail : env.stockUpdateOk k = false) :
    ∃ store',
      create_sale env uid data store =
        (.err 400 ("Error actualizando stock para " ++ (infos.get ⟨k, hk⟩).product.name),
         store') ∧
      store'.sales = store.sales ∧
      store'.sale_items = store.sale_items := by
  have hne : items.isEmpty = false :=
    items_isEmpty_false_of_infos hval (by intro hc; subst hc; simp at hk)
  rw [create_sale_ok_unfold env uid data store items t infos hitems hne hval hsi]
  obtain ⟨store', heq, hsales, hsi', hprods⟩ := processItems_update_fail env
    (newSale uid data store t) infos k hk 0 (insertHeader (newSale uid data store t) store)
    (fun j hj => by simpa using hins j hj)
    (fun j hj => by simpa using hupd j hj)
    (by simpa using hfail)
    (fun info hm => infos_any_products uid store hval info hm)
  have hsalesEq : store'.sales = store.sales := by
    rw [hsales]
    show ((store.sales ++ [newSale uid data store t]).filter
      (fun s => s.id != (newSale uid data store t).id)) = store.sales
    rw [List.filter_append]
    have h2 : [newSale uid data store t].filter
        (fun s => s.id != (newSale uid data store t).id) = [] := by simp
    have h1 : store.sales.filter (fun s => s.id != (newSale uid data store t).id)
        = store.sales := by
      rw [List.filter_eq_self]
      intro s hs
      have hlt := hwf.1 s hs
      show (s.id != store.next_sale_id) = true
      simp only [bne_iff_ne, ne_eq]
      omega
    rw [h1, h2, List.append_nil]
  have hitemsEq : store'.sale_items = store.sale_items := by
    rw [hsi']
    show (store.sale_items.filter
      (fun x => x.sale_id != (newSale uid data store t).id)) = store.sale_items
    rw [List.filter_eq_self]
    intro x hx
    have hlt := hwf.2.1 x hx
    show (x.sale_id != store.next_sale_id) = true
    simp only [bne_iff_ne, ne_eq]
    omega
  exact ⟨store', heq, hsalesEq, hitemsEq⟩

/-- Witness for C4: the second stock update fails, the error names "Te",
and neither a sale row nor any sale-item row remains. -/
theorem c4_stock_update_fail_compensates_witness :
    ∃ store',
      create_sale wEnvUpdFail 1 wReq wStore =
        (.err 400 "Error actualizando stock para Te", store') ∧
      store'.sales = wStore.sales ∧
      store'.sale_items = wStore.sale_items :=
  c4_stock_update_fail_compensates wEnvUpdFail 1 wReq wStore
    [⟨some 1, some 2, none⟩, ⟨some 2, some 3, some 5⟩] 35 wInfos 1
    (by decide) rfl rfl rfl (by decide)
    (fun j hj => rfl)
    (fun j hj => by
      have hj0 : j = 0 := Nat.lt_one_iff.mp hj
      subst hj0; rfl)
    rfl

/-- C9: when the k-th stock update fails, the compensation deletes the sale
header and the sale's item rows (the tables end as they started), but the
stock decrements already applied for the earlier items are not restored:
for every j < k the j-th product's row still carries snapshot stock minus
the j-th quantity after the error response.  (Distinct product ids keep the
per-item decrements independent.) -/
theorem c9_stock_not_restored (env : Env) (uid : Nat) (data : SaleRequest)
    (store : Store) (items : List ReqItem) (t : Int) (infos : List ProcItem) (k : Nat)
    (hwf : store.WF)
    (hitems : data.items = some items)
    (hnodup : (items.map (fun it => it.product_id.getD 0)).Nodup)
    (hval : validateItems uid store items = .ok (t, infos))
    (hsi : env.saleInsertOk = true)
    (hk : k < infos.length)
    (hins : ∀ j, j ≤ k → env.itemInsertOk j = true)
    (hupd : ∀ j, j < k → env.stockUpdateOk j = true)
    (hfail : env.stockUpdateOk k = false) :
    ∃ store',
      create_sale env uid data store =
        (.err 400 ("Error actualizando stock para " ++ (infos.get ⟨k, hk⟩).product.name),
         store') ∧
      store'.sales = store.sales ∧
      store'.sale_items = store.sale_items ∧
      ∀ (j : Nat) (hj : j < k),
        ∃ p' ∈ store'.products,
          p'.id = (infos.get ⟨j, Nat.lt_trans hj hk⟩).product.id ∧
          p'.stock = (infos.get ⟨j, Nat.lt_trans hj hk⟩).product.stock -
            (infos.get ⟨j, Nat.lt_trans hj hk⟩).item_data.quantity.getD 0 := by
  have hne : items.isEmpty = false :=
    items_isEmpty_false_of_infos hval (by intro hc; subst hc; simp at hk)
  rw [create_sale_ok_unfold env uid data store items t infos hitems hne hval hsi]
  obtain ⟨store', heq, hsales, hsi', hprods⟩ := processItems_update_fail env
    (newSale uid data store t) infos k hk 0 (insertHeader (newSale uid data store t) store)
    (fun j hj => by simpa using hins j hj)
    (fun j hj => by simpa using hupd j hj)
    (by simpa using hfail)
    (fun info hm => infos_any_products uid store hval info hm)
  have hsalesEq : store'.sales = store.sales := by
    rw [hsales]
    show ((store.sales ++ [newSale uid data store t]).filter
      (fun s => s.id != (newSale uid data store t).id)) = store.sales
    rw [List.filter_append]
    have h2 : [newSale uid data store t].filter
        (fun s => s.id != (newSale uid data store t).id) = [] := by simp
    have h1 : store.sales.filter (fun s => s.id != (newSale uid data store t).id)
        = store.sales := by
      rw [List.filter_eq_self]
      intro s hs
      have hlt := hwf.1 s hs
      show (s.id != store.next_sale_id) = true
      simp only [bne_iff_ne, ne_eq]
      omega
    rw [h1, h2, List.append_nil]
  have hitemsEq : store'.sale_items = store.sale_items := by
    rw [hsi']
    show (store.sale_items.filter
      (fun x => x.sale_id != (newSale uid data store t).id)) = store.sale_items
    rw [List.filter_eq_self]
    intro x hx
    have hlt := hwf.2.1 x hx
    show (x.sale_id != store.next_sale_id) = true
    simp only [bne_iff_ne, ne_eq]
    omega
  have hprodsEq : store'.products = (infos.take k).foldl applyUpd store.products := hprods
  refine ⟨store', heq, hsalesEq, hitemsEq, ?_⟩
  intro j hj
  have hjl : j < infos.length := Nat.lt_trans hj hk
  have hkle : k ≤ infos.length := Nat.le_of_lt hk
  have htl : (infos.take k).length = k := by
    rw [List.length_take]
    omega
  have hjt : j < (infos.take k).length := by omega
  have hget : (infos.take k).get ⟨j, hjt⟩ = infos.get ⟨j, hjl⟩ := by
    simp [List.get_take]
  have hnodup' : ((infos.take k).map (fun i => i.product.id)).Nodup := by
    rw [List.map_take]
    refine List.Nodup.sublist (List.take_sublist ..) ?_
    rw [validateItems_pids uid store hval]
    exact hnodup
  have hmem : ((infos.take k).get ⟨j, hjt⟩).product ∈ store.products := by
    rw [hget]
    exact (validateItems_info_product uid store hval _ (List.get_mem infos _ _)).1
  obtain ⟨p', hp'mem, hp'id, hp'stock⟩ :=
    foldl_applyUpd_get (infos.take k) store.products hnodup' j hjt hmem
  rw [hget] at hp'id hp'stock
  rw [← hprodsEq] at hp'mem
  exact ⟨p', hp'mem, hp'id, hp'stock⟩

/-- Witness for C9: with the second stock update failing, the first
product's stock stays decremented (8 - 2 = 6) while the sale header and
item rows are gone. -/
theorem c9_stock_not_restored_witness :
    ∃ store',
      create_sale wEnvUpdFail 1 wReq wStore =
        (.err 400 "Error actualizando stock para Te", store') ∧
      store'.sales = wStore.sales ∧
      store'.sale_items = wStore.sale_items ∧
      ∃ p' ∈ store'.products, p'.id = 1 ∧ p'.stock = 8 - 2 := by
  obtain ⟨store', heq, h1, h2, h3⟩ := c9_stock_not_restored wEnvUpdFail 1 wReq wStore
    [⟨some 1, some 2, none⟩, ⟨some 2, some 3, some 5⟩] 35 wInfos 1
    (by decide) rfl (by decide) rfl rfl (by decide)
    (fun j hj => rfl)
    (fun j hj => by
      have hj0 : j = 0 := Nat.lt_one_iff.mp hj
      subst hj0; rfl)
    rfl
  exact ⟨store', heq, h1, h2, h3 0 (by decide)⟩

/-- A one-product store for the duplicate-item counterexample. -/
def dupStore : Store := ⟨[⟨1, 1, "Cafe", 10, 8, "", 5⟩], [], [], 1, 1⟩

/-- A request naming the same product twice (quantities 2 and 3). -/
def dupReq : SaleRequest := ⟨some [⟨some 1, some 2, none⟩, ⟨some 1, some 3, none⟩], none, none⟩

/-- Counterexample to C5 as stated: a sale with the same product in two
items (quantities 2 then 3, initial stock 8) succeeds, yet the persisted
stock is 5 = 8 - 3: each update writes snapshot-stock minus that item's
quantity, so the later update overwrites the earlier decrement.  The
claim's per-item equation fails for the first item (5 is not 8 - 2), and
the cumulative reading fails too (5 is not 8 - 2 - 3). -/
theorem c5_counterexample :
    (create_sale envAllOk 1 dupReq dupStore).1 = Resp.ok ⟨1, 50, none, 1⟩ ∧
    (create_sale envAllOk 1 dupReq dupStore).2.products = [⟨1, 1, "Cafe", 10, 5, "", 5⟩] ∧
    ((5 : Int) ≠ 8 - 2 ∧ (5 : Int) ≠ 8 - 2 - 3) := by decide

/-- C5 (amended): for every successful sale in which no product is
referenced by more than one item, every item's product ends with persisted
stock equal to its pre-sale stock minus that item's quantity.  (When a
product appears in several items only the last item's snapshot-based
decrement survives — see the counterexample.) -/
theorem c5_stock_decrement_distinct (env : Env) (uid : Nat) (data : SaleRequest)
    (store : Store) (sale : Sale) (store' : Store) (items : List ReqItem)
    (hitems : data.items = some items)
    (hnodup : (items.map (fun it => it.product_id.getD 0)).Nodup)
    (h : create_sale env uid data store = (.ok sale, store')) :
    ∀ (j : Nat) (hj : j < items.length),
      ∃ p, (fetchProduct uid ((items.get ⟨j, hj⟩).product_id.getD 0) store).head? = some p ∧
        ∃ p' ∈ store'.products, p'.id = p.id ∧
          p'.stock = p.stock - (items.get ⟨j, hj⟩).quantity.getD 0 := by
  obtain ⟨items0, t, infos, hitems0, hne, hval, hsi, hproc⟩ :=
    create_sale_ok_inversion env uid data store sale store' h
  have hsame : items0 = items := by
    rw [hitems] at hitems0
    exact (Option.some.injEq _ _ ▸ hitems0).symm
  subst hsame
  obtain ⟨hmap, htot, hall⟩ := validateItems_ok_spec uid store items0 t infos hval
  obtain ⟨hs, hsales, hprods⟩ := processItems_ok_char env _ infos 0 _ sale store' hproc
  intro j hj
  have hlen : infos.length = items0.length := by rw [← hmap, List.length_map]
  have hjl : j < infos.length := by omega
  have hgetitem : (infos.get ⟨j, hjl⟩).item_data = items0.get ⟨j, hj⟩ := by
    have h1 := List.get_map_rev ProcItem.item_data (l := infos) (n := ⟨j, hjl⟩)
    rw [h1]
    exact List.get_of_eq hmap _
  obtain ⟨hh, -, -, -, -⟩ := hall (infos.get ⟨j, hjl⟩) (List.get_mem infos _ _)
  refine ⟨(infos.get ⟨j, hjl⟩).product, ?_, ?_⟩
  · rw [← hgetitem]
    exact hh
  · have hnodup' : (infos.map (fun i => i.product.id)).Nodup := by
      rw [validateItems_pids uid store hval]
      exact hnodup
    have hmem : (infos.get ⟨j, hjl⟩).product ∈ store.products :=
      (validateItems_info_product uid store hval _ (List.get_mem infos _ _)).1
    obtain ⟨p', hp'mem, hp'id, hp'stock⟩ :=
      foldl_applyUpd_get infos store.products hnodup' j hjl hmem
    have hprodsEq : store'.products = infos.foldl applyUpd store.products := hprods
    rw [← hprodsEq] at hp'mem
    rw [hgetitem] at hp'stock
    exact ⟨p', hp'mem, hp'id, hp'stock⟩

/-- Witness for the amended C5: in the two-distinct-product run, the first
product ends at stock 6 = 8 - 2. -/
theorem c5_stock_decrement_distinct_witness :
    ∃ p, (fetchProduct 1
        (((([⟨some 1, some 2, none⟩, ⟨some 2, some 3, some 5⟩] : List ReqItem)).get
          ⟨0, by decide⟩).product_id.getD 0) wStore).head? = some p ∧
      ∃ p' ∈ (create_sale envAllOk 1 wReq wStore).2.products, p'.id = p.id ∧
        p'.stock = p.stock -
          ((([⟨some 1, some 2, none⟩, ⟨some 2, some 3, some 5⟩] : List ReqItem)).get
            ⟨0, by decide⟩).quantity.getD 0 :=
  c5_stock_decrement_distinct envAllOk 1 wReq wStore ⟨1, 35, none, 1⟩
    (create_sale envAllOk 1 wReq wStore).2
    [⟨some 1, some 2, none⟩, ⟨some 2, some 3, some 5⟩]
    rfl (by decide) (by decide) 0 (by decide)

/-- A one-product store for the negative-quantity counterexample. -/
def negStore : Store := ⟨[⟨1, 1, "Cafe", 10, 8, "", 5⟩], [], [], 1, 1⟩

/-- A request whose single item carries quantity -1. -/
def negReq : SaleRequest := ⟨some [⟨some 1, some (-1), none⟩], none, none⟩

/-- Counterexample to C6 as stated: an item with the strictly negative
quantity -1 is not rejected.  The sale is accepted with total -10 and the
product's stock is mutated from 8 up to 9 (`not item.get('quantity')` only
catches a missing or zero quantity). -/
theorem c6_counterexample :
    (create_sale envAllOk 1 negReq negStore).1 = Resp.ok ⟨1, -10, none, 1⟩ ∧
    (create_sale envAllOk 1 negReq negStore).2.products = [⟨1, 1, "Cafe", 10, 9, "", 5⟩] ∧
    ¬ (0 : Int) < -1 := by decide

/-- C6 (amended): `create_sale` rejects, before any store mutation, every
request whose items list is missing or empty (400, "La venta debe tener al
menos un item") and every request containing an item lacking a product
reference or whose quantity is missing or zero (Python falsiness); a
strictly negative quantity, however, passes this check — see the
counterexample. -/
theorem c6_falsy_validation (env : Env) (uid : Nat) (data : SaleRequest) (store : Store) :
    ((data.items = none ∨ data.items = some []) →
      create_sale env uid data store =
        (.err 400 "La venta debe tener al menos un item", store)) ∧
    (∀ items, data.items = some items →
      (∃ it ∈ items, (falsyNat it.product_id || falsyInt it.quantity) = true) →
      ∃ c m, create_sale env uid data store = (.err c m, store)) := by
  constructor
  · rintro (h | h)
    · unfold create_sale
      rw [h]
    · unfold create_sale
      rw [h]
      rfl
  · intro items hitems hex
    obtain ⟨e, he⟩ := validateItems_falsy_fails uid store items hex
    obtain ⟨c, m, hcm⟩ := validateItems_error_shape uid store items e he
    obtain ⟨it, hit, -⟩ := hex
    have hne : items.isEmpty = false := by
      cases items with
      | nil => simp at hit
      | cons a l => rfl
    subst hcm
    exact ⟨c, m, create_sale_err_unfold env uid data store items _ hitems hne he⟩

/-- Witness for the amended C6: an item with a missing quantity is rejected
with the store untouched. -/
theorem c6_falsy_validation_witness :
    ∃ c m, create_sale envAllOk 1 (⟨some [⟨some 1, none, none⟩], none, none⟩ : SaleRequest)
      wStore = (.err c m, wStore) :=
  (c6_falsy_validation envAllOk 1 ⟨some [⟨some 1, none, none⟩], none, none⟩ wStore).2
    [⟨some 1, none, none⟩] rfl ⟨⟨some 1, none, none⟩, by decide, by decide⟩

/-- A store whose only data belongs to user 2. -/
def leakStore : Store :=
  ⟨[⟨1, 2, "Secreto", 10, 5, "", 5⟩], [⟨1, 30, none, 2⟩], [⟨1, 1, 1, 3, 10⟩], 2, 2⟩

/-- Counterexample to C7 as stated: the top-products report computed for
user 1 over a store whose every sale belongs to user 2 still returns user
2's sale-item data (product name, quantity, revenue) instead of an empty
result: the fetch's user filter addresses a non-embedded resource and does
not restrict the rows read. -/
theorem c7_counterexample :
    top_products 1 leakStore = [⟨"Secreto", 3, 30⟩] ∧
    (∀ s ∈ leakStore.sales, s.user_id = 2) ∧ (1 : Nat) ≠ 2 := by decide

/-- C7 (amended): within `create_sale` every row read or written belongs to
the requesting user: a product owned by another user survives the call
unchanged (stock updates, keyed by product id alone, only ever hit rows
previously fetched with the caller's ownership filter), every pre-existing
sale and sale-item row survives (the compensating deletes only target the
freshly inserted sale id), and any new sales row carries the caller's user
id.  The top-products fetch, by contrast, is not user-scoped — see the
counterexample. -/
theorem c7_create_sale_isolation (env : Env) (uid : Nat) (data : SaleRequest) (store : Store)
    (resp : Resp) (store' : Store) (hwf : store.WF)
    (h : create_sale env uid data store = (resp, store')) :
    (∀ p ∈ store.products, p.user_id ≠ uid → p ∈ store'.products) ∧
    (∀ s ∈ store.sales, s ∈ store'.sales) ∧
    (∀ x ∈ store.sale_items, x ∈ store'.sale_items) ∧
    (∀ s ∈ store'.sales, s ∉ store.sales → s.user_id = uid) := by
  unfold create_sale at h
  split at h
  · have hst : store' = store := (congrArg Prod.snd h).symm
    subst hst
    exact ⟨fun p hp _ => hp, fun s hs => hs, fun x hx => hx, fun s hs hns => absurd hs hns⟩
  next items heq =>
    split at h
    · have hst : store' = store := (congrArg Prod.snd h).symm
      subst hst
      exact ⟨fun p hp _ => hp, fun s hs => hs, fun x hx => hx, fun s hs hns => absurd hs hns⟩
    next hne =>
      split at h
      next e hval =>
        have hst : store' = store := (congrArg Prod.snd h).symm
        subst hst
        exact ⟨fun p hp _ => hp, fun s hs => hs, fun x hx => hx, fun s hs hns => absurd hs hns⟩
      next t infos hval =>
        split at h
        next hsi =>
          have hpair : processItems env (newSale uid data store t) infos 0
              (insertHeader (newSale uid data store t) store) = (resp, store') := h
          refine ⟨?_, ?_, ?_, ?_⟩
          · intro p hp hpu
            have hne2 : ∀ info ∈ infos, info.product.id ≠ p.id := by
              intro info hm hcontra
              obtain ⟨hmem, -, huid⟩ := validateItems_info_product uid store hval info hm
              have hep : info.product = p := hwf.2.2 info.product hmem p hp hcontra
              exact hpu (hep ▸ huid)
            have hpres := processItems_preserve_product env (newSale uid data store t) p
              infos 0 (insertHeader (newSale uid data store t) store) hp hne2
            rw [hpair] at hpres
            exact hpres
          · intro s hs
            have hlt := hwf.1 s hs
            have hne3 : s.id ≠ (newSale uid data store t).id := by
              show s.id ≠ store.next_sale_id
              omega
            have hmem1 : s ∈ (insertHeader (newSale uid data store t) store).sales :=
              List.mem_append_left _ hs
            have hpres := processItems_preserve_sale env (newSale uid data store t) s hne3
              infos 0 (insertHeader (newSale uid data store t) store) hmem1
            rw [hpair] at hpres
            exact hpres
          · intro x hx
            have hlt := hwf.2.1 x hx
            have hne3 : x.sale_id ≠ (newSale uid data store t).id := by
              show x.sale_id ≠ store.next_sale_id
              omega
            have hpres := processItems_preserve_item env (newSale uid data store t) x hne3
              infos 0 (insertHeader (newSale uid data store t) store) hx
            rw [hpair] at hpres
            exact hpres
          · intro s hs hnmem
            have hsub := processItems_sales_subset env (newSale uid data store t)
              infos 0 (insertHeader (newSale uid data store t) store)
            rw [hpair] at hsub
            have hmem1 : s ∈ store.sales ++ [newSale uid data store t] := hsub hs
            rcases List.mem_append.mp hmem1 with h1 | h2
            · exact absurd h1 hnmem
            · rw [List.mem_singleton.mp h2]
              rfl
        next hsi =>
          have hst : store' = store := (congrArg Prod.snd h).symm
          subst hst
          exact ⟨fun p hp _ => hp, fun s hs => hs, fun x hx => hx, fun s hs hns => absurd hs hns⟩

/-- A store mixing user 1's and user 2's rows. -/
def w7store : Store :=
  ⟨[⟨1, 1, "Cafe", 10, 8, "", 5⟩, ⟨5, 2, "Ajeno", 3, 4, "", 5⟩],
   [⟨0, 9, none, 2⟩], [⟨0, 0, 5, 1, 3⟩], 1, 1⟩

/-- User 1 buys two units of product 1. -/
def w7req : SaleRequest := ⟨some [⟨some 1, some 2, none⟩], none, none⟩

/-- Witness for the amended C7: user 2's product survives user 1's sale
untouched, user 2's sale and sale-item rows survive, and the inserted sale
belongs to user 1. -/
theorem c7_create_sale_isolation_witness :
    (⟨5, 2, "Ajeno", 3, 4, "", 5⟩ : Product) ∈
      (create_sale envAllOk 1 w7req w7store).2.products := by
  have h := c7_create_sale_isolation envAllOk 1 w7req w7store
    (create_sale envAllOk 1 w7req w7store).1 (create_sale envAllOk 1 w7req w7store).2
    (by decide) rfl
  exact h.1 ⟨5, 2, "Ajeno", 3, 4, "", 5⟩ (by decide) (by decide)

/-- C8: `top_products` aggregates the fetched sale-item rows by product
name (summing quantity, and quantity times unit price as revenue), sorts
the groups descending by total quantity, and returns at most the first 10;
over the rows [(A,2,10),(B,1,5),(A,1,10)] it yields A with quantity 3 and
revenue 30, then B with quantity 1 and revenue 5, in that order. -/
theorem c8_top_products_aggregation (rows : List FetchedItem) :
    (topProductsList rows).length ≤ 10 ∧
    List.Sorted qtyGe (topProductsList rows) ∧
    (∀ e ∈ topProductsList rows,
      e.quantity = totalQtyFor rows e.name ∧ e.revenue = totalRevFor rows e.name) ∧
    topProductsList [⟨2, 10, some "A"⟩, ⟨1, 5, some "B"⟩, ⟨1, 10, some "A"⟩] =
      [⟨"A", 3, 30⟩, ⟨"B", 1, 5⟩] := by
  refine ⟨?_, ?_, ?_, by decide⟩
  · exact List.length_take_le ..
  · exact List.Pairwise.sublist (List.take_sublist ..)
      (List.sorted_insertionSort qtyGe (aggregate rows))
  · intro e he
    have h1 : e ∈ List.insertionSort qtyGe (aggregate rows) :=
      (List.take_sublist ..).subset he
    have h2 : e ∈ aggregate rows := (List.perm_insertionSort qtyGe (aggregate rows)).mem_iff.mp h1
    exact aggregate_spec rows e h2

/-- Witness for C8, instantiating the membership hypothesis at the spec's
example rows: the entry for A carries the summed quantity. -/
theorem c8_top_products_aggregation_witness :
    (⟨"A", 3, 30⟩ : TopEntry).quantity =
      totalQtyFor [⟨2, 10, some "A"⟩, ⟨1, 5, some "B"⟩, ⟨1, 10, some "A"⟩] "A" :=
  ((c8_top_products_aggregation [⟨2, 10, some "A"⟩, ⟨1, 5, some "B"⟩, ⟨1, 10, some "A"⟩]).2.2.1
    ⟨"A", 3, 30⟩ (by decide)).1

/-- C10: a product-creation request whose name is missing or empty, or
whose price is missing or exactly 0, is rejected with a 400 validation
error and the store is untouched; consequently no run of `create_product`
can ever insert a product with price 0 (any inserted row's price is the
request's non-falsy price). -/
theorem c10_create_product_validation (insertOk : Bool) (newId uid : Nat)
    (data : ProductRequest) (store : Store) :
    ((falsyStr data.name || falsyInt data.price) = true →
      create_product insertOk newId uid data store =
        (.err 400 "Nombre y precio son requeridos", store)) ∧
    (∀ r store', create_product insertOk newId uid data store = (r, store') →
      ∀ p ∈ store'.products, p ∉ store.products → p.price ≠ 0) := by
  constructor
  · intro h
    unfold create_product
    rw [if_pos h]
  · intro r store' h p hp hnot
    unfold create_product at h
    split at h
    · have hst : store' = store := (congrArg Prod.snd h).symm
      subst hst
      exact absurd hp hnot
    next hfal =>
      split at h
      next hinsert =>
        have hst : store' = { store with products := store.products ++
            [{ id := newId, user_id := uid, name := data.name.getD "",
               price := data.price.getD 0, stock := data.stock.getD 0,
               category := data.category.getD "",
               low_stock_alert := data.low_stock_alert.getD 5 }] } :=
          (congrArg Prod.snd h).symm
        rw [hst] at hp
        have hp' : p ∈ store.products ++
            [{ id := newId, user_id := uid, name := data.name.getD "",
               price := data.price.getD 0, stock := data.stock.getD 0,
               category := data.category.getD "",
               low_stock_alert := data.low_stock_alert.getD 5 }] := hp
        rcases List.mem_append.mp hp' with h1 | h2
        · exact absurd h1 hnot
        · have hpe := List.mem_singleton.mp h2
          have hpfal : falsyInt data.price = false := by
            have := Bool.or_eq_false_iff.mp (Bool.not_eq_true _ ▸ hfal)
            exact this.2
          cases hprice : data.price with
          | none => rw [hprice] at hpfal; simp [falsyInt] at hpfal
          | some v =>
            rw [hprice] at hpfal
            have hv : v ≠ 0 := by simpa [falsyInt] using hpfal
            rw [hpe]
            show data.price.getD 0 ≠ 0
            rw [hprice]
            simpa using hv
      next hinsert =>
        have hst : store' = store := (congrArg Prod.snd h).symm
        subst hst
        exact absurd hp hnot

/-- Witness for C10: price exactly 0 is rejected with the validation
error and the store unchanged. -/
theorem c10_create_product_validation_witness :
    create_product true 7 1 ⟨some "X", some 0, none, none, none⟩ wStore =
      (.err 400 "Nombre y precio son requeridos", wStore) :=
  (c10_create_product_validation true 7 1 ⟨some "X", some 0, none, none, none⟩ wStore).1
    (by decide)

end Lindura

